import Mathlib

/-!
# Verification of the boardling payment-settlement core

Shallow embedding of the Zcash paywall backend:

* `src/backend/src/config/zcash.js` — the Chain RPC Gateway (`zcashRpc`,
  the convenience operations built on it, and `waitForOperation`);
* `src/backend/dist/utils/retry.cjs` — `retryWithBackoff`;
* `src/backend/schema.sql` — the `invoices` / `withdrawals` tables and the
  `user_balances` view;
* the invoice / withdrawal lifecycle operations (spec-modelled where the
  route implementations are not in the tree).

Machine values: ZEC amounts are exact `DECIMAL(16,8)` fixed-point
decimals, modelled as integer multiples of 10⁻⁸ ZEC (zatoshis); JSON
values are an inductive `JVal`; fallible JavaScript code returns
`Except String`.
-/

namespace Boardling

/-- A JSON-ish JavaScript value, including `undefined` (JS array indexing
out of range and missing object fields yield `undefined`, not `null`). -/
inductive JVal where
  | null : JVal
  | undefined : JVal
  | bool : Bool → JVal
  | num : ℚ → JVal
  | str : String → JVal
  | arr : List JVal → JVal
  | obj : List (String × JVal) → JVal

/-- The JSON-RPC error object carried in a node response body
(`response.data.error`), as used by `zcashRpc`: only `.message` is read. -/
structure RpcErrorObj where
  message : String
deriving DecidableEq, Repr

/-- The parsed body of a 2xx node response (`response.data`):
`{error, result}`. `error = none` models an absent/null error field. -/
structure RpcBody where
  error : Option RpcErrorObj
  result : JVal

/-- Outcome of one `axios.post` to the node, as observed by `zcashRpc`:
a 2xx response with a parsed body, an HTTP-level non-2xx response (axios
rejects with an error carrying `.response`), or a transport failure (axios
rejects with an error that has no `.response`). -/
inductive AxiosOutcome where
  | success (body : RpcBody)
  | httpError (status : Nat) (statusText : String)
  | connError (message : String)

/-- The external node, modelled as a deterministic oracle: the response to
the `k`-th HTTP request issued (counted globally), for a given RPC method
and parameter list. -/
structure RpcNode where
  respond : Nat → String → List JVal → AxiosOutcome

/-- A thrown JavaScript `Error` as inspected inside `zcashRpc`'s `catch`:
its `.message`, and its `.response` (present exactly on axios HTTP-level
errors, as a `(status, statusText)` pair). -/
structure JsError where
  message : String
  response : Option (Nat × String)
deriving DecidableEq, Repr

/-- The `try` block of `zcashRpc` (`src/backend/src/config/zcash.js:19-35`):
`axios.post` either resolves or rejects; on a resolved response, a truthy
`response.data.error` raises `Zcash RPC Error: <message>` (a plain `Error`,
so with no `.response` field), otherwise `response.data.result` is
returned. -/
def zcashRpcTry (outcome : AxiosOutcome) : Except JsError JVal :=
  match outcome with
  | .success body =>
      match body.error with
      | some e => .error ⟨"Zcash RPC Error: " ++ e.message, none⟩
      | none => .ok body.result
  | .httpError status statusText =>
      .error ⟨"Request failed with status code " ++ toString status,
              some (status, statusText)⟩
  | .connError message => .error ⟨message, none⟩

/-- The `catch` block of `zcashRpc` (`zcash.js:36-41`): an error with a
`.response` becomes `Zcash RPC HTTP Error: <status> - <statusText>`; any
other error becomes `Zcash RPC Connection Error: <message>`. -/
def zcashRpcCatch (e : JsError) : String :=
  match e.response with
  | some (status, statusText) =>
      "Zcash RPC HTTP Error: " ++ toString status ++ " - " ++ statusText
  | none => "Zcash RPC Connection Error: " ++ e.message

/-- Result translation of one `zcashRpc` call for a given axios outcome:
the `try` block, with every thrown error routed through the `catch`. -/
def zcashRpcResult (outcome : AxiosOutcome) : Except String JVal :=
  match zcashRpcTry outcome with
  | .ok v => .ok v
  | .error e => .error (zcashRpcCatch e)

/-- `zcashRpc(method, params)` (`zcash.js:18-42`): issues exactly one
`axios.post` (the request counter `k` advances by one) and translates the
outcome. -/
def zcashRpc (node : RpcNode) (method : String) (params : List JVal)
    (k : Nat) : Except String JVal × Nat :=
  (zcashRpcResult (node.respond k method params), k + 1)

/-- Classification of a thrown Gateway error message by its prefix — the
only kind information `zcashRpc` attaches to an error. -/
def errorKind (m : String) : String :=
  if "Zcash RPC Connection Error: ".data.isPrefixOf m.data then "ConnectionError"
  else if "Zcash RPC HTTP Error: ".data.isPrefixOf m.data then "TransportError"
  else if "Zcash RPC Error: ".data.isPrefixOf m.data then "RpcError"
  else "Unknown"

/-- `generateZAddress()` (`zcash.js:48-50`). -/
def generateZAddress (node : RpcNode) (k : Nat) : Except String JVal × Nat :=
  zcashRpc node "z_getnewaddress" [] k

/-- `getReceivedByAddress(address, minconf)` (`zcash.js:58-60`). -/
def getReceivedByAddress (node : RpcNode) (address : String)
    (minconf : ℚ := 0) (k : Nat := 0) : Except String JVal × Nat :=
  zcashRpc node "z_listreceivedbyaddress" [.num minconf, .arr [.str address]] k

/-- `sendMany(recipients, minconf, fee)` (`zcash.js:69-71`). -/
def sendMany (node : RpcNode) (recipients : JVal) (minconf : ℚ := 1)
    (fee : ℚ := 1 / 10000) (k : Nat := 0) : Except String JVal × Nat :=
  zcashRpc node "z_sendmany" [.str "", recipients, .num minconf, .num fee] k

/-- `getBlockchainInfo()` (`zcash.js:108-110`). -/
def getBlockchainInfo (node : RpcNode) (k : Nat) : Except String JVal × Nat :=
  zcashRpc node "getblockchaininfo" [] k

/-- `validateAddress(address)` (`zcash.js:117-119`). -/
def validateAddress (node : RpcNode) (address : String) (k : Nat) :
    Except String JVal × Nat :=
  zcashRpc node "validateaddress" [address |> .str] k

/-- Message of the `TypeError` raised by JavaScript when a property of
`undefined` or `null` is read. -/
def typeErrorMsg : String := "TypeError: cannot read properties of undefined or null"

/-- JavaScript `operations[0]`: indexing `null`/`undefined` raises a
`TypeError`; indexing an empty array yields `undefined` without raising;
otherwise the first element (or the `"0"` property / first character). -/
def index0 : JVal → Except String JVal
  | .null => .error typeErrorMsg
  | .undefined => .error typeErrorMsg
  | .arr [] => .ok .undefined
  | .arr (x :: _) => .ok x
  | .obj fields => .ok (((fields.filter (fun p => p.1 == "0")).head?.map Prod.snd).getD .undefined)
  | .str s =>
      .ok (match s.data with
           | [] => .undefined
           | c :: _ => .str (String.mk [c]))
  | .bool _ => .ok .undefined
  | .num _ => .ok .undefined

/-- JavaScript property read `v.f`: raises a `TypeError` on
`undefined`/`null`, yields the field (or `undefined` if absent) on an
object, and `undefined` on other primitives. -/
def getField : JVal → String → Except String JVal
  | .null, _ => .error typeErrorMsg
  | .undefined, _ => .error typeErrorMsg
  | .obj fields, f => .ok (((fields.filter (fun p => p.1 == f)).head?.map Prod.snd).getD .undefined)
  | _, _ => .ok .undefined

/-- JavaScript strict equality `v === 's'` between a value and a string
literal: true exactly when `v` is that string. -/
def jstrEq : JVal → String → Bool
  | .str s, t => s == t
  | _, _ => false

/-- `getOperationStatus(opid)` (`zcash.js:78-81`): one
`z_getoperationstatus` call, then `operations[0]`. -/
def getOperationStatus (node : RpcNode) (opid : String) (k : Nat) :
    Except String JVal × Nat :=
  let r := zcashRpc node "z_getoperationstatus" [.arr [.str opid]] k
  (r.1.bind index0, r.2)

/-- The timeout error message thrown by `waitForOperation`
(`zcash.js:101`). -/
def timeoutMsg (opid : String) (maxAttempts : Nat) : String :=
  "Operation " ++ opid ++ " timed out after " ++ toString maxAttempts ++ " attempts"

/-- The `for` loop of `waitForOperation` (`zcash.js:91-99`), with
`remaining` iterations left, request counter `k` and accumulated sleep time
`sleepMs`: each iteration queries the operation status, returns any status
that is neither `executing` nor `queued`, and otherwise sleeps `interval`
milliseconds before the next iteration; exhausting the loop throws the
timeout error. Errors raised by the query (or by reading `.status` of an
`undefined` result) propagate. -/
def waitLoop (node : RpcNode) (opid : String) (maxAttempts interval : Nat) :
    Nat → Nat → Nat → (Except String JVal × Nat × Nat)
  | 0, k, sleepMs => (.error (timeoutMsg opid maxAttempts), k, sleepMs)
  | remaining + 1, k, sleepMs =>
      match getOperationStatus node opid k with
      | (.error e, k') => (.error e, k', sleepMs)
      | (.ok status, k') =>
          match getField status "status" with
          | .error e => (.error e, k', sleepMs)
          | .ok sv =>
              if !jstrEq sv "executing" && !jstrEq sv "queued" then
                (.ok status, k', sleepMs)
              else
                waitLoop node opid maxAttempts interval remaining k' (sleepMs + interval)

/-- `waitForOperation(opid, maxAttempts, interval)` (`zcash.js:90-102`):
the bounded polling loop, returning the result together with the final
request counter and the total milliseconds slept. -/
def waitForOperation (node : RpcNode) (opid : String)
    (maxAttempts : Nat := 50) (interval : Nat := 2500) (k : Nat := 0) :
    Except String JVal × Nat × Nat :=
  waitLoop node opid maxAttempts interval maxAttempts k 0

/-! ## `retryWithBackoff` (`src/backend/dist/utils/retry.cjs:11-33`) -/

/-- An error thrown by a retried function, as inspected by
`retryWithBackoff`: only its `.code` property is read (`none` models an
absent code). A payload distinguishes errors from one another. -/
structure RetryErr where
  code : Option String
  payload : Nat := 0
deriving DecidableEq, Repr

/-- The non-retryable test of `retry.cjs:23`: `error.code` is
`VALIDATION_ERROR`, `NOT_FOUND` or `UNAUTHORIZED`. -/
def nonRetryable (e : RetryErr) : Bool :=
  e.code == some "VALIDATION_ERROR" || e.code == some "NOT_FOUND" ||
    e.code == some "UNAUTHORIZED"

/-- The `for` loop of `retryWithBackoff` from attempt index `attempt` with
`remaining = maxRetries - attempt` further attempts allowed. The function
under retry is modelled as a map from attempt index to outcome. Returns the
result, the total number of invocations of `fn`, and the list of backoff
delays slept (in order). Mirrors `retry.cjs:13-32`: on the last allowed
attempt the loop breaks and rethrows the last error before the
non-retryable check; otherwise a non-retryable error is rethrown at once,
and a retryable one sleeps `baseDelay * 2 ^ attempt` and retries. -/
def retryFrom (fn : Nat → Except RetryErr α) (baseDelay : Nat) :
    Nat → Nat → Except RetryErr α × Nat × List Nat
  | attempt, 0 =>
      match fn attempt with
      | .ok v => (.ok v, attempt + 1, [])
      | .error e => (.error e, attempt + 1, [])
  | attempt, remaining + 1 =>
      match fn attempt with
      | .ok v => (.ok v, attempt + 1, [])
      | .error e =>
          if nonRetryable e then (.error e, attempt + 1, [])
          else
            let rest := retryFrom fn baseDelay (attempt + 1) remaining
            (rest.1, rest.2.1, (baseDelay * 2 ^ attempt) :: rest.2.2)

/-- `retryWithBackoff(fn, maxRetries, baseDelay)` (`retry.cjs:11-33`). -/
def retryWithBackoff (fn : Nat → Except RetryErr α) (maxRetries : Nat := 3)
    (baseDelay : Nat := 1000) : Except RetryErr α × Nat × List Nat :=
  retryFrom fn baseDelay 0 maxRetries

/-! ## The relational schema (`src/backend/schema.sql`) and the
`user_balances` view -/

/-- A row of the `invoices` table (`schema.sql:27-48`), restricted to the
columns the claims use. Amounts are `DECIMAL(16,8)` values — exact
fixed-point decimals — modelled as integer multiples of 10⁻⁸ ZEC
(zatoshis); `paid_amount_zec` is nullable. -/
structure InvoiceRow where
  user_id : Nat
  status : String
  amount_zec : ℤ
  paid_amount_zec : Option ℤ
deriving DecidableEq, Repr

/-- A row of the `withdrawals` table (`schema.sql:61-78`), restricted to
the columns the claims use. -/
structure WithdrawalRow where
  user_id : Nat
  status : String
  amount_zec : ℤ
  fee_zec : ℤ
  net_zec : ℤ
deriving DecidableEq, Repr

/-- The database state seen by the `user_balances` view: the `invoices`
and `withdrawals` tables. -/
structure Tables where
  invoices : List InvoiceRow
  withdrawals : List WithdrawalRow
deriving DecidableEq, Repr

/-- The rows of `invoices` matching the view's first join condition
`u.id = i.user_id AND i.status = 'paid'` (`schema.sql:119`). -/
def paidInvoicesOf (db : Tables) (u : Nat) : List InvoiceRow :=
  db.invoices.filter (fun i => i.user_id == u && i.status == "paid")

/-- The rows of `withdrawals` matching the view's second join condition
`u.id = w.user_id AND w.status IN ('sent', 'processing')`
(`schema.sql:120`). -/
def activeWithdrawalsOf (db : Tables) (u : Nat) : List WithdrawalRow :=
  db.withdrawals.filter
    (fun w => w.user_id == u && (w.status == "sent" || w.status == "processing"))

/-- SQL `LEFT JOIN` chain of `schema.sql:118-120` for one user row: the
user is paired with every matching invoice (or one null) and every
matching withdrawal (or one null), giving the cross product of the two
padded sides. -/
def userBalanceRows (db : Tables) (u : Nat) :
    List (Option InvoiceRow × Option WithdrawalRow) :=
  let is := (paidInvoicesOf db u).map some
  let ws := (activeWithdrawalsOf db u).map some
  let is' := if is.isEmpty then [none] else is
  let ws' := if ws.isEmpty then [none] else ws
  is'.flatMap (fun i => ws'.map (fun w => (i, w)))

/-- `COALESCE(SUM(i.paid_amount_zec), 0)` over the joined rows of one
user's group (`schema.sql:113`): SQL `SUM` skips NULLs, and `COALESCE`
turns an all-NULL sum into 0. -/
def total_received_zec (db : Tables) (u : Nat) : ℤ :=
  ((userBalanceRows db u).map
    (fun r => match r.1 with
              | some i => i.paid_amount_zec.getD 0
              | none => 0)).sum

/-- `COALESCE(SUM(w.amount_zec), 0)` over the joined rows of one user's
group (`schema.sql:114`). -/
def total_withdrawn_zec (db : Tables) (u : Nat) : ℤ :=
  ((userBalanceRows db u).map
    (fun r => match r.2 with
              | some w => w.amount_zec
              | none => 0)).sum

/-- The `available_balance_zec` column of the `user_balances` view
(`schema.sql:115`) for a given user id. -/
def available_balance_zec (db : Tables) (u : Nat) : ℤ :=
  total_received_zec db u - total_withdrawn_zec db u

/-- Modelled from the spec: §3 "Available Balance", the derived balance
`sum(paid_amount of user's paid invoices) − sum(requested_amount of user's
withdrawals in {processing, sent})`. Stated from the spec's words, for
comparison with the view's `available_balance_zec`. -/
def specAvailableBalance (db : Tables) (u : Nat) : ℤ :=
  ((paidInvoicesOf db u).map (fun i => i.paid_amount_zec.getD 0)).sum -
    ((activeWithdrawalsOf db u).map (fun w => w.amount_zec)).sum

/-! ## The invoice / withdrawal lifecycle

The route implementations (`routes/invoice.js`, `routes/withdraw.js`) are
not in the tree — only their SDK declarations and the route index that
mounts them are — so the lifecycle operations are modelled from the spec
(§4.2, §4.4, §3). Amounts are zatoshis (naturals, 10⁻⁸ ZEC). The model
covers one user's rows; per §5, per-user operations are independent. -/

/-- Invoice status (`schema.sql:37-38`, spec §3). -/
inductive InvStatus where
  | pending | paid | expired | cancelled
deriving DecidableEq, Repr

/-- Withdrawal status (`schema.sql:71-72`, spec §3). -/
inductive WStatus where
  | pending | processing | sent | failed
deriving DecidableEq, Repr

/-- An invoice of the lifecycle model: requested amount, recorded paid
amount (null until paid), status. -/
structure MInvoice where
  amount : Nat
  paidAmount : Option Nat
  status : InvStatus
deriving DecidableEq, Repr

/-- A withdrawal of the lifecycle model: requested amount, platform fee,
net amount actually sent, status. -/
structure MWithdrawal where
  amount : Nat
  fee : Nat
  net : Nat
  status : WStatus
deriving DecidableEq, Repr

/-- The settlement-core state for one user: that user's invoices and
withdrawals. -/
structure LedgerState where
  invoices : List MInvoice
  withdrawals : List MWithdrawal
deriving DecidableEq, Repr

/-- The empty initial state: a fresh user has no invoices and no
withdrawals. -/
def initState : LedgerState := ⟨[], []⟩

/-- Modelled from the spec: §4.4 `estimateFee(amount) → {fee, net}`, a
pure function of the amount (`routes/withdraw.js` is not in the tree).
The §8 scenario pins the schedule: a `2.0` ZEC request yields
`fee = 0.02`, `net = 1.98`, i.e. a 1% platform fee with
`net = amount − fee`. -/
def estimateFee (amount : Nat) : Nat × Nat :=
  (amount / 100, amount - amount / 100)

/-- Modelled from the spec: §4.3 `availableBalance(userId)`, the §3
formula over this user's rows — paid invoices' recorded amounts minus
requested amounts of withdrawals in `{processing, sent}`. -/
def availableBalance (s : LedgerState) : ℤ :=
  ((s.invoices.filter (fun i => i.status == .paid)).map
      (fun i => ((i.paidAmount.getD 0 : Nat) : ℤ))).sum -
    ((s.withdrawals.filter
        (fun w => w.status == .processing || w.status == .sent)).map
      (fun w => ((w.amount : Nat) : ℤ))).sum

/-- Modelled from the spec: the state transitions of §4.2 and §4.4
(`routes/invoice.js` / `routes/withdraw.js` are not in the tree).
`createInvoice` validates `amount > 0` and persists a pending row;
`checkPayment` marks a pending invoice paid only when the confirmed
receipts at its address sum to at least the requested amount, recording
the true received sum; `expire`/`cancel` close a pending invoice;
`createWithdrawal` validates `amount > 0` and the balance guard and stores
the `estimateFee` split; `processWithdrawal` takes `pending → processing`,
and `settleSent`/`settleFailed` take `processing` to a terminal status. -/
inductive Step : LedgerState → LedgerState → Prop where
  | createInvoice (s : LedgerState) (amount : Nat) (hpos : 0 < amount) :
      Step s ⟨s.invoices ++ [⟨amount, none, .pending⟩], s.withdrawals⟩
  | checkPaymentPaid (s : LedgerState) (i : Nat) (inv : MInvoice)
      (received : Nat) (hget : s.invoices[i]? = some inv)
      (hpending : inv.status = .pending) (hsum : inv.amount ≤ received) :
      Step s ⟨s.invoices.set i ⟨inv.amount, some received, .paid⟩, s.withdrawals⟩
  | expire (s : LedgerState) (i : Nat) (inv : MInvoice)
      (hget : s.invoices[i]? = some inv) (hpending : inv.status = .pending) :
      Step s ⟨s.invoices.set i { inv with status := .expired }, s.withdrawals⟩
  | cancel (s : LedgerState) (i : Nat) (inv : MInvoice)
      (hget : s.invoices[i]? = some inv) (hpending : inv.status = .pending) :
      Step s ⟨s.invoices.set i { inv with status := .cancelled }, s.withdrawals⟩
  | createWithdrawal (s : LedgerState) (amount : Nat) (hpos : 0 < amount)
      (hbal : (amount : ℤ) ≤ availableBalance s) :
      Step s ⟨s.invoices,
        s.withdrawals ++
          [⟨amount, (estimateFee amount).1, (estimateFee amount).2, .pending⟩]⟩
  | processWithdrawal (s : LedgerState) (i : Nat) (w : MWithdrawal)
      (hget : s.withdrawals[i]? = some w) (hpending : w.status = .pending) :
      Step s ⟨s.invoices, s.withdrawals.set i { w with status := .processing }⟩
  | settleSent (s : LedgerState) (i : Nat) (w : MWithdrawal)
      (hget : s.withdrawals[i]? = some w) (hproc : w.status = .processing) :
      Step s ⟨s.invoices, s.withdrawals.set i { w with status := .sent }⟩
  | settleFailed (s : LedgerState) (i : Nat) (w : MWithdrawal)
      (hget : s.withdrawals[i]? = some w) (hproc : w.status = .processing) :
      Step s ⟨s.invoices, s.withdrawals.set i { w with status := .failed }⟩

/-- A database state the settlement core can reach from the empty initial
state by the modelled operations. -/
def Reachable (s : LedgerState) : Prop :=
  Relation.ReflTransGen Step initState s

/-- Invariant of spec §8: every paid invoice records a received sum at
least as large as its requested amount. -/
def PaidCovered (s : LedgerState) : Prop :=
  ∀ inv ∈ s.invoices, inv.status = .paid →
    ∃ p, inv.paidAmount = some p ∧ inv.amount ≤ p

/-- Invariant of spec §8: every withdrawal row satisfies
`fee + net = amount` with a positive net amount. -/
def FeeSplitOk (s : LedgerState) : Prop :=
  ∀ w ∈ s.withdrawals, w.fee + w.net = w.amount ∧ 0 < w.net

/-! ## Concrete instruments for settling the claims -/

/-- A node whose every response is a 2xx with the given result and no
error object. -/
def resultNode (v : JVal) : RpcNode :=
  ⟨fun _ _ _ => .success ⟨none, v⟩⟩

/-- A node answering the `k`-th request with a well-formed
`z_getoperationstatus` result whose single operation object carries
status string `f k`. Quantifying over `f` ranges over every sequence of
status values the chain can report. -/
def opStatusNode (f : Nat → String) : RpcNode :=
  ⟨fun k _ _ => .success ⟨none, .arr [.obj [("status", .str (f k))]]⟩⟩

/-- An operation status string the `waitForOperation` loop keeps polling
on: `queued` or `executing`. -/
def nonTerminalStr (s : String) : Prop :=
  s = "queued" ∨ s = "executing"

/-- Database state exhibiting the `user_balances` join fan-out: user 1
has two paid invoices (1 ZEC and 2 ZEC received) and two in-flight
withdrawals (1 ZEC requested each, one `sent`, one `processing`).
Amounts in zatoshis. -/
def fanoutTables : Tables :=
  ⟨[⟨1, "paid", 100000000, some 100000000⟩,
    ⟨1, "paid", 200000000, some 200000000⟩],
   [⟨1, "sent", 100000000, 1000000, 99000000⟩,
    ⟨1, "processing", 100000000, 1000000, 99000000⟩]⟩

/-- The message `zcashRpc` throws for a 2xx response whose body reports
the node error `insufficient funds`. -/
def wrappedRpcErrMsg : String :=
  "Zcash RPC Connection Error: Zcash RPC Error: insufficient funds"

/-- Concrete reachable state: one invoice for 1 ZEC, paid with a 1.5 ZEC
receipt. -/
def paidState : LedgerState :=
  ⟨[⟨100000000, some 150000000, .paid⟩], []⟩

/-- Concrete reachable state: `paidState` after a 1 ZEC withdrawal is
created (1% fee split). -/
def withdrawnState : LedgerState :=
  ⟨[⟨100000000, some 150000000, .paid⟩],
   [⟨100000000, 1000000, 99000000, .pending⟩]⟩

/-- A node whose transport always fails (axios rejects with a plain
network error, no `.response`). -/
def connFailNode : RpcNode := ⟨fun _ _ _ => .connError "socket hang up"⟩

/-- A node that always answers HTTP 500 (axios rejects with
`.response` set). -/
def http500Node : RpcNode := ⟨fun _ _ _ => .httpError 500 "Internal Server Error"⟩

/-- A node that always answers 2xx with a JSON-RPC error object in the
body (`{error: {message: "insufficient funds"}}`). -/
def nodeErrNode : RpcNode :=
  ⟨fun _ _ _ => .success ⟨some ⟨"insufficient funds"⟩, .null⟩⟩

/-- A retried function that fails retryably once (no error code) and then
succeeds. -/
def retryProbe : Nat → Except RetryErr Nat :=
  fun i => if i = 0 then .error ⟨none, 7⟩ else .ok 42

/-- A retried function that always fails with a `VALIDATION_ERROR`
code. -/
def validationFail : Nat → Except RetryErr Nat :=
  fun _ => .error ⟨some "VALIDATION_ERROR", 0⟩

/-! # Lemmas -/

/-- Each `getOperationStatus` call advances the request counter by exactly
one. -/
lemma getOperationStatus_snd (node : RpcNode) (opid : String) (k : Nat) :
    (getOperationStatus node opid k).2 = k + 1 := rfl

/-- The polling loop issues at most one request per remaining attempt. -/
lemma waitLoop_requests_le (node : RpcNode) (opid : String) (n interval : Nat) :
    ∀ r k sl, (waitLoop node opid n interval r k sl).2.1 ≤ k + r := by
  intro r
  induction r with
  | zero => intro k sl; simp [waitLoop]
  | succ r ih =>
    intro k sl
    rw [waitLoop]
    cases hX : (zcashRpcResult (node.respond k "z_getoperationstatus" [JVal.arr [JVal.str opid]])).bind index0 with
    | error e =>
      simp only [getOperationStatus, zcashRpc, hX]
      omega
    | ok status =>
      simp only [getOperationStatus, zcashRpc, hX]
      cases hF : getField status "status" with
      | error e => simp only [hF]; omega
      | ok sv =>
        simp only [hF]
        by_cases hc : (!jstrEq sv "executing" && !jstrEq sv "queued") = true
        · simp only [hc, if_true]; omega
        · simp only [Bool.not_eq_true] at hc
          simp only [hc, Bool.false_eq_true, if_false]
          have := ih (k + 1) (sl + interval)
          omega

/-- The polling loop sleeps at most `interval` per remaining attempt. -/
lemma waitLoop_sleep_le (node : RpcNode) (opid : String) (n interval : Nat) :
    ∀ r k sl, (waitLoop node opid n interval r k sl).2.2 ≤ sl + r * interval := by
  intro r
  induction r with
  | zero => intro k sl; simp [waitLoop]
  | succ r ih =>
    intro k sl
    rw [waitLoop]
    cases hX : (zcashRpcResult (node.respond k "z_getoperationstatus" [JVal.arr [JVal.str opid]])).bind index0 with
    | error e =>
      simp only [getOperationStatus, zcashRpc, hX]
      omega
    | ok status =>
      simp only [getOperationStatus, zcashRpc, hX]
      cases hF : getField status "status" with
      | error e => simp only [hF]; omega
      | ok sv =>
        simp only [hF]
        by_cases hc : (!jstrEq sv "executing" && !jstrEq sv "queued") = true
        · simp only [hc, if_true]; omega
        · simp only [Bool.not_eq_true] at hc
          simp only [hc, Bool.false_eq_true, if_false]
          have := ih (k + 1) (sl + interval)
          have hm : (r + 1) * interval = r * interval + interval := by ring
          omega

/-- One iteration of the polling loop against `opStatusNode f`: observe
`f k`, return it if terminal, otherwise sleep and continue. -/
lemma waitLoop_step_opStatus (f : Nat → String) (opid : String) (n interval r k sl : Nat) :
    waitLoop (opStatusNode f) opid n interval (r + 1) k sl =
      if !(f k == "executing") && !(f k == "queued") then
        (.ok (.obj [("status", .str (f k))]), k + 1, sl)
      else waitLoop (opStatusNode f) opid n interval r (k + 1) (sl + interval) := rfl

/-- A run of the polling loop in which every observation is non-terminal
exhausts its budget: it queries once and sleeps once per attempt, then
throws the timeout error. -/
lemma waitLoop_all_nonterminal (f : Nat → String) (opid : String) (n interval : Nat) :
    ∀ r k sl, (∀ i, i < r → nonTerminalStr (f (k + i))) →
      waitLoop (opStatusNode f) opid n interval r k sl =
        (.error (timeoutMsg opid n), k + r, sl + r * interval) := by
  intro r
  induction r with
  | zero => intro k sl _; simp [waitLoop]
  | succ r ih =>
    intro k sl h
    rw [waitLoop_step_opStatus]
    have h0 := h 0 (Nat.succ_pos r)
    have hcond : (!(f k == "executing") && !(f k == "queued")) = false := by
      rcases h0 with h0 | h0 <;> simp [nonTerminalStr] at h0 <;> simp [h0]
    rw [hcond, if_neg (by simp)]
    have hrec := ih (k + 1) (sl + interval) (fun i hi => by
      have hh := h (i + 1) (by omega)
      have he : k + (i + 1) = k + 1 + i := by omega
      rwa [he] at hh)
    rw [hrec]
    have e1 : k + 1 + r = k + (r + 1) := by omega
    have e2 : sl + interval + r * interval = sl + (r + 1) * interval := by ring
    rw [e1, e2]

/-- A run of the polling loop whose first terminal observation is attempt
`i` (within budget) returns that status object, having queried `i + 1`
times and slept `i` intervals. -/
lemma waitLoop_first_terminal (f : Nat → String) (opid : String) (n interval : Nat) :
    ∀ r i k sl, i < r →
      (∀ j, j < i → nonTerminalStr (f (k + j))) →
      ¬ nonTerminalStr (f (k + i)) →
      waitLoop (opStatusNode f) opid n interval r k sl =
        (.ok (.obj [("status", .str (f (k + i)))]), k + i + 1, sl + i * interval) := by
  intro r
  induction r with
  | zero => intro i k sl hi; omega
  | succ r ih =>
    intro i k sl hi hpre hterm
    rw [waitLoop_step_opStatus]
    cases i with
    | zero =>
      simp only [nonTerminalStr, Nat.add_zero, not_or] at hterm
      have hcond : (!(f k == "executing") && !(f k == "queued")) = true := by
        simp [hterm.1, hterm.2]
      rw [hcond, if_pos rfl]
      simp
    | succ i' =>
      have h0 := hpre 0 (Nat.succ_pos i')
      have hcond : (!(f k == "executing") && !(f k == "queued")) = false := by
        rcases h0 with h0 | h0 <;> simp [nonTerminalStr] at h0 <;> simp [h0]
      rw [hcond, if_neg (by simp)]
      have hpre' : ∀ j, j < i' → nonTerminalStr (f (k + 1 + j)) := fun j hj => by
        have hh := hpre (j + 1) (by omega)
        have he : k + (j + 1) = k + 1 + j := by omega
        rwa [he] at hh
      have hterm' : ¬ nonTerminalStr (f (k + 1 + i')) := by
        have he : k + (i' + 1) = k + 1 + i' := by omega
        rwa [he] at hterm
      have hrec := ih i' (k + 1) (sl + interval) (by omega) hpre' hterm'
      rw [hrec]
      have e0 : k + 1 + i' = k + (i' + 1) := by omega
      have e2 : sl + interval + i' * interval = sl + (i' + 1) * interval := by ring
      rw [e0, e2]

section RetryLemmas

variable {α : Type} (fn : Nat → Except RetryErr α) (b : Nat)

/-- The retry loop starting at attempt `a` with `r` further attempts
allowed invokes `fn` at least once and at most `r + 1` times. -/
lemma retryFrom_calls_bounds :
    ∀ r a, a + 1 ≤ (retryFrom fn b a r).2.1 ∧ (retryFrom fn b a r).2.1 ≤ a + r + 1 := by
  intro r
  induction r with
  | zero =>
    intro a
    cases hfa : fn a <;> simp [retryFrom, hfa]
  | succ r ih =>
    intro a
    cases hfa : fn a with
    | ok v => simp [retryFrom, hfa]
    | error e =>
      by_cases hnr : nonRetryable e = true
      · simp [retryFrom, hfa, hnr]
      · simp only [Bool.not_eq_true] at hnr
        have := ih (a + 1)
        simp only [retryFrom, hfa, hnr, Bool.false_eq_true, if_false]
        omega

/-- The backoff delays slept by the retry loop are exactly
`b * 2 ^ j` for the attempt indices `j` that were retried. -/
lemma retryFrom_delays :
    ∀ r a, (retryFrom fn b a r).2.2 =
      (List.range' a ((retryFrom fn b a r).2.1 - 1 - a)).map (fun j => b * 2 ^ j) := by
  intro r
  induction r with
  | zero =>
    intro a
    cases hfa : fn a <;> simp [retryFrom, hfa]
  | succ r ih =>
    intro a
    cases hfa : fn a with
    | ok v => simp [retryFrom, hfa]
    | error e =>
      by_cases hnr : nonRetryable e = true
      · simp [retryFrom, hfa, hnr]
      · simp only [Bool.not_eq_true] at hnr
        have hb := retryFrom_calls_bounds fn b r (a + 1)
        simp only [retryFrom, hfa, hnr, Bool.false_eq_true, if_false]
        rw [ih (a + 1)]
        have hlen : (retryFrom fn b (a + 1) r).2.1 - 1 - a =
            ((retryFrom fn b (a + 1) r).2.1 - 1 - (a + 1)) + 1 := by omega
        rw [hlen, List.range'_succ]
        simp

/-- The retry loop's result is the outcome of the last invocation
performed: a returned value was returned by the last call, and a thrown
error was thrown by the last call. -/
lemma retryFrom_last :
    ∀ r a,
      (∀ v, (retryFrom fn b a r).1 = .ok v → fn ((retryFrom fn b a r).2.1 - 1) = .ok v) ∧
      (∀ e, (retryFrom fn b a r).1 = .error e → fn ((retryFrom fn b a r).2.1 - 1) = .error e) := by
  intro r
  induction r with
  | zero =>
    intro a
    cases hfa : fn a <;> simp [retryFrom, hfa]
  | succ r ih =>
    intro a
    cases hfa : fn a with
    | ok v => simp [retryFrom, hfa]
    | error e =>
      by_cases hnr : nonRetryable e = true
      · simp [retryFrom, hfa, hnr]
      · simp only [Bool.not_eq_true] at hnr
        simp only [retryFrom, hfa, hnr, Bool.false_eq_true, if_false]
        exact ih (a + 1)

/-- Every invocation before the last one failed with a retryable error —
the loop never abandons an attempt for any other reason. -/
lemma retryFrom_prior_fail :
    ∀ r a j, a ≤ j → j < (retryFrom fn b a r).2.1 - 1 →
      ∃ e, fn j = .error e ∧ nonRetryable e = false := by
  intro r
  induction r with
  | zero =>
    intro a j haj hj
    cases hfa : fn a <;> simp [retryFrom, hfa] at hj <;> omega
  | succ r ih =>
    intro a j haj hj
    cases hfa : fn a with
    | ok v => simp [retryFrom, hfa] at hj; omega
    | error e =>
      by_cases hnr : nonRetryable e = true
      · simp [retryFrom, hfa, hnr] at hj; omega
      · simp only [Bool.not_eq_true] at hnr
        simp only [retryFrom, hfa, hnr, Bool.false_eq_true, if_false] at hj
        rcases Nat.eq_or_lt_of_le haj with heq | hlt
        · exact ⟨e, heq ▸ hfa, hnr⟩
        · exact ih (a + 1) j hlt hj

/-- If attempt `k` (within budget) throws a non-retryable error after `k`
retryable failures, the loop stops there: the error is rethrown as-is,
`fn` has been invoked exactly `k + 1` times, and only the `k` earlier
backoff delays were slept. -/
lemma retryFrom_stops_nonretryable (e : RetryErr) :
    ∀ r a k, a ≤ k → k ≤ a + r →
      (∀ j, a ≤ j → j < k → ∃ e', fn j = .error e' ∧ nonRetryable e' = false) →
      fn k = .error e → nonRetryable e = true →
      retryFrom fn b a r = (.error e, k + 1, (List.range' a (k - a)).map (fun j => b * 2 ^ j)) := by
  intro r
  induction r with
  | zero =>
    intro a k hak hka hpre hk hnr
    have hke : k = a := by omega
    subst hke
    simp [retryFrom, hk]
  | succ r ih =>
    intro a k hak hka hpre hk hnr
    rcases Nat.eq_or_lt_of_le hak with heq | hlt
    · subst heq
      simp [retryFrom, hk, hnr]
    · obtain ⟨e', hfa, hnr'⟩ := hpre a le_rfl hlt
      simp only [retryFrom, hfa, hnr', Bool.false_eq_true, if_false]
      have hrec := ih (a + 1) k hlt (by omega)
        (fun j hj1 hj2 => hpre j (by omega) hj2) hk hnr
      rw [hrec]
      have hlen : k - a = (k - (a + 1)) + 1 := by omega
      rw [hlen, List.range'_succ]
      simp

end RetryLemmas

/-- Every modelled lifecycle operation preserves the paid-coverage
invariant: the only transition into `paid` is `checkPaymentPaid`, whose
guard requires the received sum to reach the requested amount. -/
lemma step_preserves_PaidCovered {s t : LedgerState} (hst : Step s t)
    (h : PaidCovered s) : PaidCovered t := by
  cases hst with
  | createInvoice amount hpos =>
    intro inv hmem hp
    rcases List.mem_append.mp hmem with h1 | h1
    · exact h inv h1 hp
    · simp only [List.mem_singleton] at h1
      subst h1
      simp at hp
  | checkPaymentPaid i inv0 received hget hpending hsum =>
    intro inv hmem hp
    rcases List.mem_or_eq_of_mem_set hmem with h1 | h1
    · exact h inv h1 hp
    · subst h1
      exact ⟨received, rfl, hsum⟩
  | expire i inv0 hget hpending =>
    intro inv hmem hp
    rcases List.mem_or_eq_of_mem_set hmem with h1 | h1
    · exact h inv h1 hp
    · subst h1
      simp at hp
  | cancel i inv0 hget hpending =>
    intro inv hmem hp
    rcases List.mem_or_eq_of_mem_set hmem with h1 | h1
    · exact h inv h1 hp
    · subst h1
      simp at hp
  | createWithdrawal amount hpos hbal => exact h
  | processWithdrawal i w0 hget hpending => exact h
  | settleSent i w0 hget hproc => exact h
  | settleFailed i w0 hget hproc => exact h

/-- Every modelled lifecycle operation preserves the fee-split invariant:
withdrawal rows are only created by `createWithdrawal` with the
`estimateFee` split, and later transitions change only the status. -/
lemma step_preserves_FeeSplitOk {s t : LedgerState} (hst : Step s t)
    (h : FeeSplitOk s) : FeeSplitOk t := by
  cases hst with
  | createInvoice amount hpos => exact h
  | checkPaymentPaid i inv0 received hget hpending hsum => exact h
  | expire i inv0 hget hpending => exact h
  | cancel i inv0 hget hpending => exact h
  | createWithdrawal amount hpos hbal =>
    intro w hmem
    rcases List.mem_append.mp hmem with h1 | h1
    · exact h w h1
    · simp only [List.mem_singleton] at h1
      subst h1
      refine ⟨?_, ?_⟩
      · show amount / 100 + (amount - amount / 100) = amount
        have := Nat.div_le_self amount 100
        omega
      · show 0 < amount - amount / 100
        have := Nat.div_le_self amount 100
        omega
  | processWithdrawal i w0 hget hpending =>
    intro w hmem
    rcases List.mem_or_eq_of_mem_set hmem with h1 | h1
    · exact h w h1
    · subst h1
      simpa using h w0 (List.getElem?_mem hget)
  | settleSent i w0 hget hproc =>
    intro w hmem
    rcases List.mem_or_eq_of_mem_set hmem with h1 | h1
    · exact h w h1
    · subst h1
      simpa using h w0 (List.getElem?_mem hget)
  | settleFailed i w0 hget hproc =>
    intro w hmem
    rcases List.mem_or_eq_of_mem_set hmem with h1 | h1
    · exact h w h1
    · subst h1
      simpa using h w0 (List.getElem?_mem hget)

/-- Paid coverage holds in every reachable state. -/
lemma reachable_PaidCovered {s : LedgerState} (hs : Reachable s) :
    PaidCovered s := by
  induction hs with
  | refl =>
    intro inv hmem _
    simp [initState] at hmem
  | tail hsteps hstep ih => exact step_preserves_PaidCovered hstep ih

/-- The fee split holds in every reachable state. -/
lemma reachable_FeeSplitOk {s : LedgerState} (hs : Reachable s) :
    FeeSplitOk s := by
  induction hs with
  | refl =>
    intro w hmem
    simp [initState] at hmem
  | tail hsteps hstep ih => exact step_preserves_FeeSplitOk hstep ih

/-- `paidState` is reachable: create a 1 ZEC invoice, then record a 1.5
ZEC receipt for it. -/
lemma reachable_paidState : Reachable paidState := by
  have h1 : Step initState ⟨[⟨100000000, none, .pending⟩], []⟩ :=
    Step.createInvoice initState 100000000 (by omega)
  have h2 : Step ⟨[⟨100000000, none, .pending⟩], []⟩ paidState :=
    Step.checkPaymentPaid ⟨[⟨100000000, none, .pending⟩], []⟩ 0
      ⟨100000000, none, .pending⟩ 150000000 rfl rfl (by decide)
  exact Relation.ReflTransGen.head h1 (Relation.ReflTransGen.single h2)

/-- `withdrawnState` is reachable: from `paidState`, create a 1 ZEC
withdrawal against the 1.5 ZEC available balance. -/
lemma reachable_withdrawnState : Reachable withdrawnState := by
  have h3 : Step paidState withdrawnState :=
    Step.createWithdrawal paidState 100000000 (by omega) (by decide)
  exact Relation.ReflTransGen.tail reachable_paidState h3

/-! # Claim theorems -/

/-- C1. The claim says `zcashRpc` yields three mutually distinguishable
error kinds: transport failure → `ConnectionError`, node-reported
JSON-RPC error → `RpcError` distinct from a `ConnectionError`, HTTP
non-2xx → `TransportError` with the status code. On the code, the first
and third cases hold, but a node-reported error (2xx body carrying an
error object) is thrown inside `zcashRpc`'s own `try`, caught by its
`catch`, and re-wrapped with the `ConnectionError` prefix: it surfaces as
a `ConnectionError`, not as a distinct `RpcError` kind. -/
theorem c1_node_error_swallowed_into_connection_error :
    (zcashRpc connFailNode "z_sendmany" [] 0).1 =
      .error "Zcash RPC Connection Error: socket hang up" ∧
    errorKind "Zcash RPC Connection Error: socket hang up" = "ConnectionError" ∧
    (zcashRpc http500Node "z_sendmany" [] 0).1 =
      .error "Zcash RPC HTTP Error: 500 - Internal Server Error" ∧
    errorKind "Zcash RPC HTTP Error: 500 - Internal Server Error" = "TransportError" ∧
    (zcashRpc nodeErrNode "z_sendmany" [] 0).1 = .error wrappedRpcErrMsg ∧
    errorKind wrappedRpcErrMsg = "ConnectionError" ∧
    errorKind wrappedRpcErrMsg ≠ "RpcError" :=
  ⟨rfl, by decide, rfl, by decide, rfl, by decide, by decide⟩

/-- C2. The claim says the `user_balances` view's `available_balance_zec`
equals paid-invoice receipts minus in-flight/sent withdrawal requests for
every state, including one with several paid invoices and several such
withdrawals. On `fanoutTables` (two paid invoices of 1 and 2 ZEC, two
1 ZEC withdrawals) the view's double `LEFT JOIN` fans out: each invoice
row is counted once per withdrawal row and vice versa, so the view yields
2 ZEC where the specified formula yields 1 ZEC. -/
theorem c2_user_balances_view_join_fanout :
    available_balance_zec fanoutTables 1 = 200000000 ∧
    specAvailableBalance fanoutTables 1 = 100000000 ∧
    available_balance_zec fanoutTables 1 ≠ specAvailableBalance fanoutTables 1 :=
  ⟨by decide, by decide, by decide⟩

/-- C3. `waitForOperation` distinguishes timeout from chain-reported
failure: if all `maxAttempts` observed statuses are non-terminal
(`queued`/`executing`) it throws the timeout error, and if the first
terminal observation within the budget is any other status — `failed`
included — it returns that status object as a value, never as a timeout
error. -/
theorem c3_timeout_distinct_from_chain_failure (f : Nat → String)
    (opid : String) (n interval : Nat) :
    ((∀ i, i < n → nonTerminalStr (f i)) →
      (waitForOperation (opStatusNode f) opid n interval 0).1 =
        .error (timeoutMsg opid n)) ∧
    (∀ i, i < n → (∀ j, j < i → nonTerminalStr (f j)) → ¬ nonTerminalStr (f i) →
      (waitForOperation (opStatusNode f) opid n interval 0).1 =
        .ok (.obj [("status", .str (f i))])) := by
  constructor
  · intro h
    have hrun := waitLoop_all_nonterminal f opid n interval n 0 0
      (fun i hi => by simpa using h i hi)
    simp [waitForOperation, hrun]
  · intro i hi hpre hterm
    have hrun := waitLoop_first_terminal f opid n interval n i 0 0 hi
      (fun j hj => by simpa using hpre j hj) (by simpa using hterm)
    simp [waitForOperation, hrun]

/-- Witness for C3 at concrete inputs: a chain-reported `failed` on the
first attempt is returned as a value, and two `queued` observations
exhaust a 2-attempt budget with the timeout error. -/
theorem c3_timeout_distinct_from_chain_failure_witness :
    (waitForOperation (opStatusNode (fun _ => "failed")) "opid-3" 2 2500 0).1 =
      .ok (.obj [("status", .str "failed")]) ∧
    (waitForOperation (opStatusNode (fun _ => "queued")) "opid-3" 2 2500 0).1 =
      .error (timeoutMsg "opid-3" 2) :=
  ⟨(c3_timeout_distinct_from_chain_failure (fun _ => "failed") "opid-3" 2 2500).2 0
      (by omega) (fun j hj => absurd hj (by omega)) (by simp [nonTerminalStr]),
   (c3_timeout_distinct_from_chain_failure (fun _ => "queued") "opid-3" 2 2500).1
      (fun _ _ => Or.inl rfl)⟩

/-- C4. In every reachable database state, a `paid` invoice records a
paid amount at least its requested amount: the only transition into
`paid` requires the confirmed receipt sum to reach the requested
amount. -/
theorem c4_paid_invoices_cover_requested (s : LedgerState) (hs : Reachable s) :
    ∀ inv ∈ s.invoices, inv.status = .paid →
      ∃ p, inv.paidAmount = some p ∧ inv.amount ≤ p :=
  reachable_PaidCovered hs

/-- Witness for C4: the concrete reachable state `paidState` (1 ZEC
invoice paid by a 1.5 ZEC receipt) satisfies the invariant. -/
theorem c4_paid_invoices_cover_requested_witness :
    Reachable paidState ∧
    ∃ p, (⟨100000000, some 150000000, .paid⟩ : MInvoice).paidAmount = some p ∧
      (⟨100000000, some 150000000, .paid⟩ : MInvoice).amount ≤ p :=
  ⟨reachable_paidState,
   c4_paid_invoices_cover_requested paidState reachable_paidState
     ⟨100000000, some 150000000, .paid⟩ (by simp [paidState]) rfl⟩

/-- C5. In every reachable database state, every withdrawal row satisfies
`fee + net = amount` exactly with a positive net (and a non-negative fee —
amounts are naturals); rows are only created through the fee split, so no
violating row can exist. -/
theorem c5_withdrawal_fee_split_exact (s : LedgerState) (hs : Reachable s) :
    ∀ w ∈ s.withdrawals, w.fee + w.net = w.amount ∧ 0 < w.net :=
  reachable_FeeSplitOk hs

/-- Witness for C5: the concrete reachable state `withdrawnState`
(1 ZEC withdrawal split as 0.01 fee + 0.99 net) satisfies the
invariant. -/
theorem c5_withdrawal_fee_split_exact_witness :
    Reachable withdrawnState ∧
    (⟨100000000, 1000000, 99000000, .pending⟩ : MWithdrawal).fee +
        (⟨100000000, 1000000, 99000000, .pending⟩ : MWithdrawal).net =
      (⟨100000000, 1000000, 99000000, .pending⟩ : MWithdrawal).amount ∧
    0 < (⟨100000000, 1000000, 99000000, .pending⟩ : MWithdrawal).net :=
  ⟨reachable_withdrawnState,
   (c5_withdrawal_fee_split_exact withdrawnState reachable_withdrawnState
     ⟨100000000, 1000000, 99000000, .pending⟩ (by simp [withdrawnState])).1,
   (c5_withdrawal_fee_split_exact withdrawnState reachable_withdrawnState
     ⟨100000000, 1000000, 99000000, .pending⟩ (by simp [withdrawnState])).2⟩

/-- C6. If the invocation at attempt `k` (within budget, after `k`
retryable failures) throws an error whose code is `VALIDATION_ERROR`,
`NOT_FOUND` or `UNAUTHORIZED`, `retryWithBackoff` propagates that error
to the caller and never invokes the function again: exactly `k + 1`
invocations happen in total. -/
theorem c6_validation_errors_never_retried (α : Type)
    (fn : Nat → Except RetryErr α) (maxRetries baseDelay k : Nat)
    (e : RetryErr) (hk : k ≤ maxRetries)
    (hpre : ∀ j, j < k → ∃ e', fn j = .error e' ∧ nonRetryable e' = false)
    (hfail : fn k = .error e) (hcode : nonRetryable e = true) :
    retryWithBackoff fn maxRetries baseDelay =
      (.error e, k + 1, (List.range k).map (fun j => baseDelay * 2 ^ j)) := by
  have hstop := retryFrom_stops_nonretryable fn baseDelay e maxRetries 0 k
    (Nat.zero_le k) (by omega) (fun j _ hj => hpre j hj) hfail hcode
  simpa [retryWithBackoff, List.range_eq_range'] using hstop

/-- Witness for C6: a function that always throws `VALIDATION_ERROR` is
invoked exactly once and its error surfaces unchanged. -/
theorem c6_validation_errors_never_retried_witness :
    (0 ≤ 3) ∧
    retryWithBackoff validationFail 3 1000 =
      (.error ⟨some "VALIDATION_ERROR", 0⟩, 1, []) :=
  ⟨Nat.zero_le 3,
   c6_validation_errors_never_retried Nat validationFail 3 1000 0
     ⟨some "VALIDATION_ERROR", 0⟩ (Nat.zero_le 3)
     (fun j hj => absurd hj (Nat.not_lt_zero j)) rfl (by decide)⟩

/-- C7. `waitForOperation` always terminates within its budget: it issues
at most `maxAttempts` operation-status queries, sleeps at most `interval`
per attempt, and on an all-non-terminal run it performs exactly
`maxAttempts` queries and sleeps, then surfaces the timeout error instead
of polling further. -/
theorem c7_polling_bounded_and_times_out (node : RpcNode) (f : Nat → String)
    (opid : String) (n interval k : Nat) (_hn : 1 ≤ n) :
    (waitForOperation node opid n interval k).2.1 ≤ k + n ∧
    (waitForOperation node opid n interval k).2.2 ≤ n * interval ∧
    ((∀ i, i < n → nonTerminalStr (f i)) →
      waitForOperation (opStatusNode f) opid n interval 0 =
        (.error (timeoutMsg opid n), n, n * interval)) := by
  refine ⟨waitLoop_requests_le node opid n interval n k 0,
    by simpa using waitLoop_sleep_le node opid n interval n k 0, ?_⟩
  intro h
  have hrun := waitLoop_all_nonterminal f opid n interval n 0 0
    (fun i hi => by simpa using h i hi)
  simpa [waitForOperation] using hrun

/-- Witness for C7: with a 1-attempt budget and an `executing` status the
loop stops after exactly one query and one sleep, throwing the timeout
error. -/
theorem c7_polling_bounded_and_times_out_witness :
    (1 ≤ 1) ∧
    waitForOperation (opStatusNode (fun _ => "executing")) "opid-7" 1 9 0 =
      (.error (timeoutMsg "opid-7" 1), 1, 1 * 9) :=
  ⟨le_refl 1,
   (c7_polling_bounded_and_times_out connFailNode (fun _ => "executing")
     "opid-7" 1 9 0 (le_refl 1)).2.2 (fun _ _ => Or.inr rfl)⟩

/-- C8. Every Gateway operation issues exactly one request to the node
per invocation — the request counter advances by exactly one, whatever
the outcome, so no call retries internally — while `waitForOperation`
issues at most one request per polling attempt. -/
theorem c8_one_request_per_gateway_call (node : RpcNode) (k : Nat)
    (method : String) (params : List JVal) (address opid : String)
    (minconf mc fee : ℚ) (recipients : JVal) (n interval : Nat) :
    (zcashRpc node method params k).2 = k + 1 ∧
    (generateZAddress node k).2 = k + 1 ∧
    (getReceivedByAddress node address minconf k).2 = k + 1 ∧
    (sendMany node recipients mc fee k).2 = k + 1 ∧
    (getOperationStatus node opid k).2 = k + 1 ∧
    (validateAddress node address k).2 = k + 1 ∧
    (getBlockchainInfo node k).2 = k + 1 ∧
    (waitForOperation node opid n interval k).2.1 ≤ k + n :=
  ⟨rfl, rfl, rfl, rfl, rfl, rfl, rfl,
   waitLoop_requests_le node opid n interval n k 0⟩

/-- C9. `retryWithBackoff` invokes the function between 1 and
`maxRetries + 1` times; its backoff delays are exactly
`baseDelay * 2 ^ j` for the retried attempt indices `j`; a returned value
is the value of the last (first successful) invocation, a thrown error is
the error of the last invocation, and every earlier invocation failed
retryably. -/
theorem c9_retry_budget_backoff_and_last_error (α : Type)
    (fn : Nat → Except RetryErr α) (maxRetries baseDelay : Nat) :
    1 ≤ (retryWithBackoff fn maxRetries baseDelay).2.1 ∧
    (retryWithBackoff fn maxRetries baseDelay).2.1 ≤ maxRetries + 1 ∧
    (retryWithBackoff fn maxRetries baseDelay).2.2 =
      (List.range ((retryWithBackoff fn maxRetries baseDelay).2.1 - 1)).map
        (fun j => baseDelay * 2 ^ j) ∧
    (∀ v, (retryWithBackoff fn maxRetries baseDelay).1 = .ok v →
      fn ((retryWithBackoff fn maxRetries baseDelay).2.1 - 1) = .ok v) ∧
    (∀ e, (retryWithBackoff fn maxRetries baseDelay).1 = .error e →
      fn ((retryWithBackoff fn maxRetries baseDelay).2.1 - 1) = .error e) ∧
    (∀ j, j < (retryWithBackoff fn maxRetries baseDelay).2.1 - 1 →
      ∃ e, fn j = .error e ∧ nonRetryable e = false) := by
  have hb := retryFrom_calls_bounds fn baseDelay maxRetries 0
  have hd := retryFrom_delays fn baseDelay maxRetries 0
  have hl := retryFrom_last fn baseDelay maxRetries 0
  have hp := fun j => retryFrom_prior_fail fn baseDelay maxRetries 0 j (Nat.zero_le j)
  simp only [retryWithBackoff]
  refine ⟨by omega, by omega, ?_, hl.1, hl.2, hp⟩
  rw [hd, List.range_eq_range']
  simp

/-- Witness for C9: `retryProbe` fails once retryably, so the SDK retries
after one `10 * 2 ^ 0` delay and returns the second invocation's value. -/
theorem c9_retry_budget_backoff_and_last_error_witness :
    retryProbe ((retryWithBackoff retryProbe 3 10).2.1 - 1) = .ok 42 ∧
    (retryWithBackoff retryProbe 3 10).2.2 =
      (List.range ((retryWithBackoff retryProbe 3 10).2.1 - 1)).map
        (fun j => 10 * 2 ^ j) :=
  ⟨(c9_retry_budget_backoff_and_last_error Nat retryProbe 3 10).2.2.2.1 42 rfl,
   (c9_retry_budget_backoff_and_last_error Nat retryProbe 3 10).2.2.1⟩

/-- C10. `getOperationStatus` returns the first element of the list the
node returns; on an empty list it returns JavaScript `undefined` as a
value without raising, and only a later `.status` read on that
`undefined` raises the `TypeError`. -/
theorem c10_operation_status_first_or_undefined (opid : String) (k : Nat)
    (l : List JVal) :
    (l = [] →
      getOperationStatus (resultNode (.arr l)) opid k = (.ok .undefined, k + 1) ∧
      getField .undefined "status" = .error typeErrorMsg) ∧
    (∀ x xs, l = x :: xs →
      getOperationStatus (resultNode (.arr l)) opid k = (.ok x, k + 1)) := by
  constructor
  · rintro rfl
    exact ⟨rfl, rfl⟩
  · rintro x xs rfl
    rfl

/-- Witness for C10: an unknown operation id (empty list) yields
`undefined` without raising, and the later `.status` access raises. -/
theorem c10_operation_status_first_or_undefined_witness :
    ([] : List JVal) = [] ∧
    getOperationStatus (resultNode (.arr [])) "opid-10" 0 = (.ok .undefined, 0 + 1) ∧
    getField .undefined "status" = .error typeErrorMsg :=
  ⟨rfl,
   ((c10_operation_status_first_or_undefined "opid-10" 0 []).1 rfl).1,
   ((c10_operation_status_first_or_undefined "opid-10" 0 []).1 rfl).2⟩

end Boardling
